/-
Verification of the genome API utility module (src/utils/genome-api.ts).

The module's exported operations are async fetchers; their decision logic is
pure once the upstream HTTP outcome is given, so each operation is embedded as
a total Lean function from an explicit upstream outcome to its result value.
JavaScript numbers are modelled as Int (all values involved are integral
coordinates/counts), dynamically-typed JSON cells as an explicit value type,
and optional JSON fields as Option.
-/
import Mathlib

namespace GenomeApi

/-- A dynamically typed JSON cell as the module's runtime sees it:
a string, a number, the absent value (undefined/null), or anything else. -/
inductive JsVal where
  | str (s : String)
  | num (n : Int)
  | undef
  | other
  deriving Repr, DecidableEq

/-- An element of the upstream display-row array: either an array of cells
(Array.isArray succeeds) or some non-array value. -/
inductive JsRow where
  | arr (cells : List JsVal)
  | notArr
  deriving Repr, DecidableEq

/-- Models String.prototype.startsWith. -/
def strStartsWith (s pre : String) : Bool :=
  pre.data.isPrefixOf s.data

/-! ## searchGenes (lines 220-276) -/

/-- Result record produced by searchGenes (interface GeneFromSearch). -/
structure GeneFromSearch where
  symbol : String
  name : String
  chrom : String
  description : String
  gene_id : String
  deriving Repr, DecidableEq

/-- The parts of the upstream NCBI search response the code reads:
data[0] (count), data[2].GeneID (gene ids), and data[3] (display rows;
none models a non-array value, rejected by Array.isArray). -/
structure NCBISearchResponse where
  count : Int
  geneIds : List JsVal
  rows : Option (List JsRow)
  deriving Repr, DecidableEq

/-- The chromosome string the record receives from display[0]
(lines 250-253 and 263): a truthy string is prefixed with chr unless it
already starts with it; a non-string display[0] ends up as "". -/
def chromOf (v : JsVal) : String :=
  match v with
  | .str s => if s ≠ "" && !(strStartsWith s "chr") then "chr" ++ s else s
  | _ => ""

/-- The gene_id string from geneIds[i] (lines 257 and 265):
geneIds[i] ?? "" and then the typeof-string guard. -/
def gidOf (v : JsVal) : String :=
  match v with
  | .str s => s
  | _ => ""

/-- One iteration of the searchGenes result loop (lines 244-271), given
display row data[3][i] and geneIds[i] (undef when out of range): validates
the row shape, coerces the chromosome, and builds the record, or skips. -/
def processRow (row : JsRow) (geneId : JsVal) : Option GeneFromSearch :=
  match row with
  | .notArr => none
  | .arr cells =>
    if cells.length < 4 then none
    else
      match cells.getD 2 .undef, cells.getD 3 .undef with
      | .str symbol, .str name =>
        some { symbol := symbol
               name := name
               chrom := chromOf (cells.getD 0 .undef)
               description := name
               gene_id := gidOf geneId }
      | _, _ => none

/-- The pure core of searchGenes: the results list built from the upstream
response (lines 236-273). The loop runs i = 0 .. min(10,count)-1, guarded by
i < data[3].length, and pushes per-row records, skipping malformed rows. -/
def searchGenesResults (data : NCBISearchResponse) : List GeneFromSearch :=
  match data.rows with
  | none => []
  | some rows =>
    if data.count > 0 then
      (List.range (min 10 data.count).toNat).filterMap (fun i =>
        if i < rows.length then
          processRow (rows.getD i .notArr) (data.geneIds.getD i .undef)
        else none)
    else []

/-! ## fetchGeneSequence (lines 320-354) -/

/-- Truthiness of an optional string field: present and non-empty. -/
def optTruthy : Option String → Bool
  | some s => s ≠ ""
  | none => false

/-- Upstream body for the UCSC sequence endpoint (interface
UCCSSequenceResponse): optional dna and error fields. -/
structure UCCSSequenceResponse where
  dna : Option String
  error : Option String
  deriving Repr, DecidableEq

/-- Outcome of the single fetch+json step: a parsed body, or a transport
exception (fetch rejection / json parse failure) caught by the try block. -/
inductive FetchOutcome (α : Type) where
  | ok (body : α)
  | exn
  deriving Repr, DecidableEq

/-- The query parameters fetchGeneSequence puts in the upstream URL
(genome, chrom, start, end at line 335). -/
structure SeqRequest where
  genome : String
  chrom : String
  apiStart : Int
  apiEnd : Int
  deriving Repr, DecidableEq

/-- Result of fetchGeneSequence: sequence, actualRange (start, end), and an
optional error field. -/
structure SeqResult where
  sequence : String
  actualRange : Int × Int
  error : Option String
  deriving Repr, DecidableEq

/-- fetchGeneSequence (lines 320-354): builds the request (chr-prefixed
chromosome, apiStart = start-1, apiEnd = end) and, from the upstream
outcome, the result. endPos names the source parameter `end`. -/
def fetchGeneSequence (chrom : String) (start endPos : Int) (genomeId : String)
    (outcome : FetchOutcome UCCSSequenceResponse) : SeqRequest × SeqResult :=
  let chromosome := if strStartsWith chrom "chr" then chrom else "chr" ++ chrom
  let req : SeqRequest := ⟨genomeId, chromosome, start - 1, endPos⟩
  match outcome with
  | .exn =>
    (req, ⟨"", (start, endPos), some "Internal error in fetch gene sequence"⟩)
  | .ok data =>
    let actualRange := (start, endPos)
    if optTruthy data.error || !(optTruthy data.dna) then
      (req, ⟨"", actualRange, data.error⟩)
    else
      (req, ⟨(data.dna.getD "").toUpper, actualRange, none⟩)

/-! ## fetchGeneDetails (lines 278-318) -/

/-- One genomicinfo entry as received: chrstart/chrstop are dynamic values
(the code checks typeof === number before using them). -/
structure GenomicInfoRaw where
  chrstart : JsVal
  chrstop : JsVal
  strand : Option String
  deriving Repr, DecidableEq

/-- A gene detail record (interface GeneDetailsFromSearch shape, as far as
the code reads it). -/
structure GeneDetailRaw where
  genomicinfo : Option (List GenomicInfoRaw)
  summary : Option String
  deriving Repr, DecidableEq

/-- Upstream esummary body: the optional result object, keyed by gene id,
modelled as an association list in key order. -/
structure NCBIGeneDetailsBody where
  result : Option (List (String × GeneDetailRaw))
  deriving Repr, DecidableEq

/-- Outcome of the gene-details fetch: a parsed body from a success status,
a non-success HTTP status, or a transport exception caught at line 315. -/
inductive DetailsOutcome where
  | ok (body : NCBIGeneDetailsBody)
  | notOk
  | exn
  deriving Repr, DecidableEq

/-- Gene bounds record (interface GeneBounds). -/
structure GeneBounds where
  min : Int
  max : Int
  deriving Repr, DecidableEq

/-- Return triple of fetchGeneDetails. -/
structure GeneDetailsResult where
  geneDetails : Option GeneDetailRaw
  geneBounds : Option GeneBounds
  initialRange : Option (Int × Int)
  deriving Repr, DecidableEq

/-- fetchGeneDetails (lines 278-318): on a parsed body, looks up the gene id
in result, takes genomicinfo[0], and when chrstart/chrstop are numbers
derives bounds (min/max) and the initial range (capped at 10000); every
other path yields the all-null triple. -/
def fetchGeneDetails (geneId : String) (outcome : DetailsOutcome) : GeneDetailsResult :=
  match outcome with
  | .exn => ⟨none, none, none⟩
  | .notOk => ⟨none, none, none⟩
  | .ok body =>
    match body.result.bind (List.lookup geneId) with
    | none => ⟨none, none, none⟩
    | some detail =>
      match detail.genomicinfo.bind List.head? with
      | none => ⟨none, none, none⟩
      | some info =>
        match info.chrstart, info.chrstop with
        | .num chrstart, .num chrstop =>
          let minPos := min chrstart chrstop
          let maxPos := max chrstart chrstop
          let geneSize := maxPos - minPos
          let seqEnd := if geneSize > 10000 then minPos + 10000 else maxPos
          ⟨some detail, some ⟨minPos, maxPos⟩, some (minPos, seqEnd)⟩
        | _, _ => ⟨none, none, none⟩

/-! ## The chromosome comparator of getGenomeChromosomes (lines 206-215) -/

/-- Models String.prototype.replace with a plain-string pattern: replace the
first occurrence of pat (left to right) by repl, on character lists. -/
def jsReplaceFirstAux (pat repl : List Char) : List Char → List Char
  | [] => if pat.isPrefixOf ([] : List Char) then repl else []
  | c :: cs =>
    if pat.isPrefixOf (c :: cs) then repl ++ (c :: cs).drop pat.length
    else c :: jsReplaceFirstAux pat repl cs

/-- String.prototype.replace with a string pattern (first occurrence only). -/
def jsReplaceFirst (s pat repl : String) : String :=
  ⟨jsReplaceFirstAux pat.data repl.data s.data⟩

/-- The regex test /^\d+$/: non-empty and all decimal digits. -/
def isNumStr (s : String) : Bool :=
  s ≠ "" && s.data.all (·.isDigit)

/-- Value of Number(s) for a string of decimal digits. -/
def digitsToNat (s : String) : Nat :=
  s.data.foldl (fun n c => n * 10 + (c.toNat - 48)) 0

/-- Code-point lexicographic comparison of character lists; models
String.prototype.localeCompare, which on the same-case ASCII alphanumeric
chromosome labels agrees with code-point order. -/
def lexCompare : List Char → List Char → Ordering
  | [], [] => .eq
  | [], _ :: _ => .lt
  | _ :: _, [] => .gt
  | a :: as, b :: bs =>
    if a < b then .lt else if b < a then .gt else lexCompare as bs

/-- localeCompare as used at line 214, returning the sign as an Int. -/
def localeCompare (a b : String) : Int :=
  match lexCompare a.data b.data with
  | .lt => -1
  | .eq => 0
  | .gt => 1

/-- The sort comparator of getGenomeChromosomes (lines 206-215):
anum = a.replace("chr",""), bnum likewise; numeric/numeric compares by
difference of Number values, numeric sorts before non-numeric, otherwise
localeCompare of the remainders. -/
def chromCompare (a b : String) : Int :=
  let anum := jsReplaceFirst a "chr" ""
  let bnum := jsReplaceFirst b "chr" ""
  let isNumA := isNumStr anum
  let isNumB := isNumStr bnum
  if isNumA && isNumB then (digitsToNat anum : Int) - (digitsToNat bnum : Int)
  else if isNumA then -1
  else if isNumB then 1
  else localeCompare anum bnum

/-- Modelled from the spec: the comparator's remainder ordering as the spec
words it — both remainders purely numeric compare by numeric value, a
purely-numeric remainder sorts before a non-numeric one, otherwise the
remainders compare lexicographically. -/
def specRemainderOrder (x y : String) : Ordering :=
  if isNumStr x && isNumStr y then
    if digitsToNat x < digitsToNat y then .lt
    else if digitsToNat y < digitsToNat x then .gt
    else .eq
  else if isNumStr x then .lt
  else if isNumStr y then .gt
  else lexCompare x.data y.data

/-- The comparator body applied to the two remainders (the core of
chromCompare after the two replace calls). -/
def remCompare (x y : String) : Int :=
  if isNumStr x && isNumStr y then (digitsToNat x : Int) - (digitsToNat y : Int)
  else if isNumStr x then -1
  else if isNumStr y then 1
  else localeCompare x y

/-- Modelled from the spec: "strip a leading chr" from a name. -/
def stripLeadingChr (s : String) : String :=
  if strStartsWith s "chr" then s.drop 3 else s

/-- Index of the first occurrence of pat as a contiguous sublist, if any. -/
def idxOfSub (pat : List Char) : List Char → Option Nat
  | [] => if pat.isPrefixOf ([] : List Char) then some 0 else none
  | c :: cs =>
    if pat.isPrefixOf (c :: cs) then some 0
    else (idxOfSub pat cs).map (· + 1)

/-- Removal of the first occurrence of pat from s, phrased by position:
the amended reading of "strip a leading chr" forced by String.replace. -/
def removeFirstOccur (pat s : String) : String :=
  match idxOfSub pat.data s.data with
  | none => s
  | some i => ⟨s.data.take i ++ s.data.drop (i + pat.data.length)⟩

/-! ## fetchClinvarVariants first-stage request (lines 356-374) -/

/-- Case-insensitive strip of a leading chr: the regex replace
chrom.replace(/^chr/i, "") at line 361, on the underlying characters. -/
def stripChrCI (s : String) : String :=
  match s.data with
  | c1 :: c2 :: c3 :: rest =>
    if c1.toLower = 'c' ∧ c2.toLower = 'h' ∧ c3.toLower = 'r' then ⟨rest⟩ else s
  | _ => s

/-- The search-stage query parameters of fetchClinvarVariants
(lines 369-374). -/
structure ClinvarSearchRequest where
  db : String
  term : String
  retmode : String
  retmax : String
  deriving Repr, DecidableEq

/-- The first-stage request built by fetchClinvarVariants (lines 361-374):
strip a leading chr case-insensitively, reorder the bounds, pick the
position field from the genome id, and assemble the term. -/
def clinvarSearchRequest (chrom : String) (geneBound : GeneBounds)
    (genomeId : String) : ClinvarSearchRequest :=
  let chromFormatted := stripChrCI chrom
  let minBound := min geneBound.min geneBound.max
  let maxBound := max geneBound.min geneBound.max
  let positionField := if genomeId = "hg19" then "chrpos37" else "chrpos38"
  let searchTerm :=
    chromFormatted ++ "[chromosome] AND " ++ toString minBound ++ ":" ++
      toString maxBound ++ "[" ++ positionField ++ "]"
  ⟨"clinvar", searchTerm, "json", "20"⟩

/-! ## getAvailableGenomes (lines 139-172) -/

/-- Catalog entry value (interface GenomeInfo): all fields optional. -/
structure GenomeInfo where
  organism : Option String
  description : Option String
  sourceName : Option String
  active : Option Bool
  deriving Repr, DecidableEq

/-- Normalized assembly record (interface GenomeAssemblyFromSearch). -/
structure GenomeAssemblyFromSearch where
  id : String
  name : String
  sourceName : String
  active : Bool
  deriving Repr, DecidableEq

/-- The record built at lines 163-168 for catalog key gid: defaulting name
and sourceName to the id, and active to !!active. -/
def mkAssembly (gid : String) (info : GenomeInfo) : GenomeAssemblyFromSearch :=
  ⟨gid, info.description.getD gid, info.sourceName.getD gid, info.active.getD false⟩

/-- Insertion into the insertion-ordered record structuredGenomes
(lines 162-168): append to the existing organism group, or create a new
group at the end. -/
def addEntry (acc : List (String × List GenomeAssemblyFromSearch))
    (org : String) (e : GenomeAssemblyFromSearch) :
    List (String × List GenomeAssemblyFromSearch) :=
  match acc with
  | [] => [(org, [e])]
  | (o, es) :: rest =>
    if o = org then (o, es ++ [e]) :: rest
    else (o, es) :: addEntry rest org e

/-- getAvailableGenomes grouping loop (lines 156-169): iterate the catalog
(an insertion-ordered string-keyed record, modelled as an association list),
skip falsy values, and insert each entry under its organism (default
"Other"). -/
def getAvailableGenomes (genomes : List (String × Option GenomeInfo)) :
    List (String × List GenomeAssemblyFromSearch) :=
  genomes.foldl
    (fun acc p =>
      match p.2 with
      | none => acc
      | some info => addEntry acc (info.organism.getD "Other") (mkAssembly p.1 info))
    []

/-- The catalog entries that survive the falsy guard, tagged with their
organism key. -/
def validPairs (genomes : List (String × Option GenomeInfo)) :
    List (String × GenomeAssemblyFromSearch) :=
  genomes.filterMap (fun p =>
    p.2.map (fun info => (info.organism.getD "Other", mkAssembly p.1 info)))

/-- First-seen deduplication of a list of keys (seen accumulates the keys
already emitted). -/
def firstSeenAux (seen : List String) : List String → List String
  | [] => []
  | a :: l =>
    if a ∈ seen then firstSeenAux seen l
    else a :: firstSeenAux (a :: seen) l

/-- Keys of a list of tagged pairs in first-seen order. -/
def firstSeen (l : List String) : List String :=
  firstSeenAux [] l

/-- Grouping of tagged pairs as the spec words it: group keys in first-seen
insertion order, each group holding its pairs' values in source order. -/
def specGroupPairs (ps : List (String × GenomeAssemblyFromSearch)) :
    List (String × List GenomeAssemblyFromSearch) :=
  (firstSeen (ps.map Prod.fst)).map
    (fun o => (o, (ps.filter (fun q => q.1 = o)).map Prod.snd))

/-- Modelled from the spec: group catalog entries by organism (default
"Other"), preserving first-seen organism insertion order across groups and
source order within each group. -/
def specGroupBy (genomes : List (String × Option GenomeInfo)) :
    List (String × List GenomeAssemblyFromSearch) :=
  specGroupPairs (validPairs genomes)

/-! ## Concrete fixtures -/

/-- A well-formed display row: numeric chromosome label i, a filler cell,
symbol SYMi, name NAMEi. -/
def mkGoodRow (i : Nat) : JsRow :=
  .arr [.str (toString i), .undef, .str ("SYM" ++ toString i), .str ("NAME" ++ toString i)]

/-- Upstream response with count = 37 and 37 well-formed display rows. -/
def fixture37 : NCBISearchResponse :=
  ⟨37, (List.range 37).map (fun i => .str ("G" ++ toString i)),
    some ((List.range 37).map mkGoodRow)⟩

/-- The ten records the first ten rows of fixture37 normalize to. -/
def expected10 : List GeneFromSearch :=
  (List.range 10).map (fun i =>
    ⟨"SYM" ++ toString i, "NAME" ++ toString i, "chr" ++ toString i,
      "NAME" ++ toString i, "G" ++ toString i⟩)

/-- Response whose middle row is malformed (not an array). -/
def fixtureMixed : NCBISearchResponse :=
  ⟨3, [], some [mkGoodRow 0, .notArr, mkGoodRow 2]⟩

/-- Records for the two well-formed rows of fixtureMixed (gene ids default
to "" since the GeneID list is empty). -/
def expectedMixed : List GeneFromSearch :=
  [⟨"SYM0", "NAME0", "chr0", "NAME0", ""⟩, ⟨"SYM2", "NAME2", "chr2", "NAME2", ""⟩]

/-- Response with a single well-formed row whose chromosome cell is the
empty string. -/
def fixtureEmptyChrom : NCBISearchResponse :=
  ⟨1, [.str "g0"], some [.arr [.str "", .undef, .str "BRCA1", .str "breast cancer gene"]]⟩

/-- Response with a single well-formed row with chromosome cell "7". -/
def fixtureGoodChrom : NCBISearchResponse :=
  ⟨1, [], some [.arr [.str "7", .undef, .str "SYM", .str "NAME"]]⟩

/-- Gene detail with chrstart 1000, chrstop 5000. -/
def detailSmall : GeneDetailRaw := ⟨some [⟨.num 1000, .num 5000, none⟩], none⟩

/-- esummary body carrying detailSmall under gene id 672. -/
def bodySmall : NCBIGeneDetailsBody := ⟨some [("672", detailSmall)]⟩

/-- Gene detail with chrstart 1000, chrstop 25000. -/
def detailLarge : GeneDetailRaw := ⟨some [⟨.num 1000, .num 25000, none⟩], none⟩

/-- esummary body carrying detailLarge under gene id 673. -/
def bodyLarge : NCBIGeneDetailsBody := ⟨some [("673", detailLarge)]⟩

/-! ## Theorems -/

/-- Claim C4: for every call of fetchGeneSequence on the inclusive range
from start to endPos, the upstream request carries apiStart = start - 1 and
apiEnd = endPos (the half-open translation), and the returned actualRange
equals the original pair in every outcome, success or failure alike. -/
theorem fetchGeneSequence_range_translation :
    ∀ (chrom : String) (start endPos : Int) (genomeId : String)
      (outcome : FetchOutcome UCCSSequenceResponse),
    (fetchGeneSequence chrom start endPos genomeId outcome).1.apiStart = start - 1 ∧
    (fetchGeneSequence chrom start endPos genomeId outcome).1.apiEnd = endPos ∧
    (fetchGeneSequence chrom start endPos genomeId outcome).2.actualRange =
      (start, endPos) := by
  intro chrom start endPos genomeId outcome
  cases outcome with
  | exn => exact ⟨rfl, rfl, rfl⟩
  | ok data =>
    simp only [fetchGeneSequence]
    split <;> exact ⟨rfl, rfl, rfl⟩

/-- Claim C2 counterexample: on the failure where the upstream body lacks
both the dna and the error field, fetchGeneSequence returns the empty
sequence but NO error string (the error field is absent), refuting the
claim that every failure carries an error string. -/
theorem fetchGeneSequence_missing_dna_no_error_cex :
    (fetchGeneSequence "chr1" 1000 2000 "hg38" (.ok ⟨none, none⟩)).2.sequence = "" ∧
    (fetchGeneSequence "chr1" 1000 2000 "hg38" (.ok ⟨none, none⟩)).2.error = none := by
  decide

/-- Claim C2 (amended): fetchGeneSequence never throws (it is total on every
outcome); on every failure it returns the empty sequence and the originally
requested inclusive range, with the error field equal to the upstream error
field (hence possibly absent when only the DNA field is missing) and the
fixed internal message on a transport exception; whenever an error is
present the sequence is empty. -/
theorem fetchGeneSequence_absorbs_failures :
    ∀ (chrom : String) (start endPos : Int) (genomeId : String)
      (outcome : FetchOutcome UCCSSequenceResponse),
    (fetchGeneSequence chrom start endPos genomeId outcome).2.actualRange =
      (start, endPos) ∧
    (∀ msg, (fetchGeneSequence chrom start endPos genomeId outcome).2.error = some msg →
      (fetchGeneSequence chrom start endPos genomeId outcome).2.sequence = "") ∧
    (fetchGeneSequence chrom start endPos genomeId .exn).2 =
      ⟨"", (start, endPos), some "Internal error in fetch gene sequence"⟩ ∧
    (∀ data, outcome = .ok data →
      (optTruthy data.error = true ∨ optTruthy data.dna = false) →
      (fetchGeneSequence chrom start endPos genomeId outcome).2.sequence = "" ∧
      (fetchGeneSequence chrom start endPos genomeId outcome).2.error = data.error) := by
  intro chrom start endPos genomeId outcome
  refine ⟨?_, ?_, rfl, ?_⟩
  · exact (fetchGeneSequence_range_translation chrom start endPos genomeId outcome).2.2
  · intro msg hmsg
    cases outcome with
    | exn => rfl
    | ok data =>
      by_cases hc : (optTruthy data.error || !optTruthy data.dna) = true
      · simp only [fetchGeneSequence, if_pos hc]
      · simp only [fetchGeneSequence, if_neg hc] at hmsg
        exact absurd hmsg (by simp)
  · rintro data rfl hfail
    simp only [fetchGeneSequence]
    have hcond : (optTruthy data.error || !optTruthy data.dna) = true := by
      rcases hfail with h | h <;> simp [h]
    rw [if_pos hcond]
    exact ⟨rfl, rfl⟩

/-- Claim C2 witness: a concrete upstream error is propagated with an empty
sequence. -/
theorem fetchGeneSequence_absorbs_failures_witness :
    (fetchGeneSequence "chr1" 1000 2000 "hg38"
      (.ok ⟨none, some "boom"⟩)).2.sequence = "" ∧
    (fetchGeneSequence "chr1" 1000 2000 "hg38"
      (.ok ⟨none, some "boom"⟩)).2.error = some "boom" :=
  (fetchGeneSequence_absorbs_failures "chr1" 1000 2000 "hg38"
    (.ok ⟨none, some "boom"⟩)).2.2.2 ⟨none, some "boom"⟩ rfl (Or.inl (by decide))

/-- Claim C3: for every gene whose first genomicinfo entry has numeric
chrstart and chrstop, fetchGeneDetails returns geneBounds with min/max of
the two values (so min ≤ max) and initialRange from min to
(min + 10000 when max - min > 10000, else max). -/
theorem fetchGeneDetails_bounds_window :
    ∀ (geneId : String) (body : NCBIGeneDetailsBody) (detail : GeneDetailRaw)
      (info : GenomicInfoRaw) (a b : Int),
    body.result.bind (List.lookup geneId) = some detail →
    detail.genomicinfo.bind List.head? = some info →
    info.chrstart = .num a → info.chrstop = .num b →
    fetchGeneDetails geneId (.ok body) =
      ⟨some detail, some ⟨min a b, max a b⟩,
        some (min a b, if max a b - min a b > 10000 then min a b + 10000 else max a b)⟩ ∧
    min a b ≤ max a b := by
  intro geneId body detail info a b h1 h2 h3 h4
  refine ⟨?_, min_le_max⟩
  simp only [fetchGeneDetails, h1, h2, h3, h4]

/-- Claim C3 witness: chrstart 1000 / chrstop 5000 gives bounds (1000,5000)
and window (1000,5000); chrstart 1000 / chrstop 25000 gives bounds
(1000,25000) and window (1000,11000). -/
theorem fetchGeneDetails_bounds_window_witness :
    (fetchGeneDetails "672" (.ok bodySmall) =
      ⟨some detailSmall, some ⟨min 1000 5000, max 1000 5000⟩,
        some (min 1000 5000,
          if max 1000 5000 - min 1000 5000 > 10000 then min 1000 5000 + 10000
          else max (1000 : Int) 5000)⟩ ∧
      min (1000 : Int) 5000 ≤ max 1000 5000) ∧
    (fetchGeneDetails "673" (.ok bodyLarge) =
      ⟨some detailLarge, some ⟨min 1000 25000, max 1000 25000⟩,
        some (min 1000 25000,
          if max 1000 25000 - min 1000 25000 > 10000 then min 1000 25000 + 10000
          else max (1000 : Int) 25000)⟩ ∧
      min (1000 : Int) 25000 ≤ max 1000 25000) ∧
    fetchGeneDetails "672" (.ok bodySmall) =
      ⟨some detailSmall, some ⟨1000, 5000⟩, some (1000, 5000)⟩ ∧
    fetchGeneDetails "673" (.ok bodyLarge) =
      ⟨some detailLarge, some ⟨1000, 25000⟩, some (1000, 11000)⟩ :=
  ⟨fetchGeneDetails_bounds_window "672" bodySmall detailSmall ⟨.num 1000, .num 5000, none⟩
      1000 5000 (by decide) (by decide) rfl rfl,
   fetchGeneDetails_bounds_window "673" bodyLarge detailLarge ⟨.num 1000, .num 25000, none⟩
      1000 25000 (by decide) (by decide) rfl rfl,
   by decide, by decide⟩

/-- Claim C5: fetchGeneDetails never throws (it is total on every outcome),
and on every failure — transport exception, non-success HTTP status, or a
body without the well-formed gene/genomicinfo/numeric-coordinates shape —
it returns the all-null triple. -/
theorem fetchGeneDetails_absorbs_failures :
    ∀ (geneId : String) (outcome : DetailsOutcome),
    (outcome = .exn ∨ outcome = .notOk ∨
      ∃ body, outcome = .ok body ∧
        ¬ ∃ detail info a b,
          body.result.bind (List.lookup geneId) = some detail ∧
          detail.genomicinfo.bind List.head? = some info ∧
          info.chrstart = JsVal.num a ∧ info.chrstop = JsVal.num b) →
    fetchGeneDetails geneId outcome = ⟨none, none, none⟩ := by
  intro geneId outcome h
  rcases h with rfl | rfl | ⟨body, rfl, hn⟩
  · rfl
  · rfl
  · rcases h1 : body.result.bind (List.lookup geneId) with _ | detail
    · simp only [fetchGeneDetails, h1]
    · rcases h2 : detail.genomicinfo.bind List.head? with _ | info
      · simp only [fetchGeneDetails, h1, h2]
      · rcases h3 : info.chrstart with s | a | _ | _ <;>
          rcases h4 : info.chrstop with t | b | _ | _ <;>
          simp only [fetchGeneDetails, h1, h2, h3, h4]
        exact absurd ⟨detail, info, a, b, h1, h2, h3, h4⟩ hn

/-- Claim C5 witness: a transport exception and a body with a missing
result object both yield the all-null triple. -/
theorem fetchGeneDetails_absorbs_failures_witness :
    fetchGeneDetails "672" .exn = ⟨none, none, none⟩ ∧
    fetchGeneDetails "672" (.ok ⟨none⟩) = ⟨none, none, none⟩ :=
  ⟨fetchGeneDetails_absorbs_failures "672" .exn (Or.inl rfl),
   fetchGeneDetails_absorbs_failures "672" (.ok ⟨none⟩)
     (Or.inr (Or.inr ⟨⟨none⟩, rfl, by rintro ⟨d, i, a, b, h1, -, -, -⟩; simp at h1⟩))⟩

/-- Stripping a leading uppercase CHR (the case-insensitive regex). -/
lemma stripChrCI_CHR_append (s : String) : stripChrCI ("CHR" ++ s) = s := by
  obtain ⟨l⟩ := s
  rfl

/-- Stripping a leading lowercase chr. -/
lemma stripChrCI_chr_append (s : String) : stripChrCI ("chr" ++ s) = s := by
  obtain ⟨l⟩ := s
  rfl

/-- Claim C8: the first-stage ClinVar search request is built from the
chromosome with a leading chr stripped case-insensitively, the bound pair
reordered so min ≤ max regardless of input order, position field chrpos37
exactly for hg19 and chrpos38 otherwise, the boolean term
chrom[chromosome] AND min:max[posField], and a result cap of 20. -/
theorem fetchClinvarVariants_search_request :
    ∀ (chrom : String) (gb : GeneBounds) (genomeId : String),
    (clinvarSearchRequest chrom gb genomeId).term =
      stripChrCI chrom ++ "[chromosome] AND " ++ toString (min gb.min gb.max) ++ ":" ++
        toString (max gb.min gb.max) ++ "[" ++
        (if genomeId = "hg19" then "chrpos37" else "chrpos38") ++ "]" ∧
    (clinvarSearchRequest chrom gb genomeId).retmax = "20" ∧
    (clinvarSearchRequest chrom gb genomeId).db = "clinvar" ∧
    clinvarSearchRequest chrom ⟨gb.max, gb.min⟩ genomeId =
      clinvarSearchRequest chrom gb genomeId ∧
    clinvarSearchRequest ("CHR" ++ chrom) gb genomeId =
      clinvarSearchRequest ("chr" ++ chrom) gb genomeId ∧
    min gb.min gb.max ≤ max gb.min gb.max := by
  intro chrom gb genomeId
  refine ⟨rfl, rfl, rfl, ?_, ?_, min_le_max⟩
  · simp only [clinvarSearchRequest]
    rw [min_comm gb.max gb.min, max_comm gb.max gb.min]
  · simp only [clinvarSearchRequest, stripChrCI_CHR_append, stripChrCI_chr_append]

/-- A string prefixed onto another is a startsWith-prefix of the result. -/
lemma strStartsWith_append (p s : String) : strStartsWith (p ++ s) p = true := by
  unfold strStartsWith
  rw [String.data_append]
  exact List.isPrefixOf_iff_prefix.mpr (List.prefix_append _ _)

/-- Every member of a searchGenes result list comes from some processRow
success. -/
lemma mem_searchGenesResults {data : NCBISearchResponse} {r : GeneFromSearch}
    (hr : r ∈ searchGenesResults data) :
    ∃ row g, processRow row g = some r := by
  obtain ⟨c, gids, rows⟩ := data
  cases rows with
  | none => simp [searchGenesResults] at hr
  | some rows =>
    simp only [searchGenesResults] at hr
    by_cases hc : c > 0
    · rw [if_pos hc] at hr
      rw [List.mem_filterMap] at hr
      obtain ⟨i, -, hi⟩ := hr
      by_cases hlen : i < rows.length
      · rw [if_pos hlen] at hi
        exact ⟨_, _, hi⟩
      · rw [if_neg hlen] at hi
        exact absurd hi (by simp)
    · rw [if_neg hc] at hr
      exact absurd hr (by simp)

/-- The chromosome coercion yields a chr-prefixed string, except that a
non-truthy or non-string display[0] yields the empty string. -/
lemma chromOf_spec (v : JsVal) :
    strStartsWith (chromOf v) "chr" = true ∨ chromOf v = "" := by
  cases v with
  | str s =>
    by_cases hs : (s ≠ "" && !(strStartsWith s "chr")) = true
    · left
      simp only [chromOf, if_pos hs]
      exact strStartsWith_append "chr" s
    · simp only [chromOf, if_neg hs]
      by_cases hse : s = ""
      · exact Or.inr hse
      · left
        simp [hse] at hs
        exact hs
  | num n => exact Or.inr rfl
  | undef => exact Or.inr rfl
  | other => exact Or.inr rfl

/-- Shape of every record processRow produces: description equals name, and
the chromosome is chr-prefixed or empty. -/
lemma processRow_some {row : JsRow} {g : JsVal} {r : GeneFromSearch}
    (h : processRow row g = some r) :
    r.description = r.name ∧ (strStartsWith r.chrom "chr" = true ∨ r.chrom = "") := by
  cases row with
  | notArr => exact absurd h (by simp [processRow])
  | arr cells =>
    simp only [processRow] at h
    split at h
    · exact absurd h (by simp)
    · split at h
      · injection h with h'
        subst h'
        exact ⟨rfl, chromOf_spec _⟩
      · exact absurd h (by simp)

/-- Claim C6: searchGenes returns at most min(10, count) results; malformed
rows are skipped individually without aborting the batch (fixtureMixed);
and a response with count 37 and 37 well-formed rows yields exactly the
first ten records in original row order (fixture37). -/
theorem searchGenes_result_cap :
    (∀ data : NCBISearchResponse,
      (searchGenesResults data).length ≤ min 10 data.count.toNat) ∧
    searchGenesResults fixture37 = expected10 ∧
    searchGenesResults fixtureMixed = expectedMixed := by
  refine ⟨?_, by decide, by decide⟩
  intro data
  obtain ⟨c, gids, rows⟩ := data
  cases rows with
  | none => simp [searchGenesResults]
  | some rows =>
    simp only [searchGenesResults]
    by_cases hc : c > 0
    · rw [if_pos hc]
      have h1 := List.length_filterMap_le
        (fun i => if i < rows.length then
          processRow (rows.getD i .notArr) (gids.getD i .undef) else none)
        (List.range (min 10 c).toNat)
      rw [List.length_range] at h1
      refine h1.trans ?_
      omega
    · rw [if_neg hc]
      simp

/-- Claim C7 counterexample: a well-formed row whose chromosome cell is the
empty string produces a record whose chrom is "", which does not start with
chr — refuting the claim that every returned chrom is chr-prefixed. -/
theorem searchGenes_chrom_cex :
    (searchGenesResults fixtureEmptyChrom).map (fun r => r.chrom) = [""] ∧
    strStartsWith "" "chr" = false := by
  decide

/-- Claim C7 (amended): every record returned by searchGenes has a chrom
that starts with chr, except that chrom is the empty string when row[0] is
not a truthy string (empty or non-string). -/
theorem searchGenes_chrom_amended :
    ∀ (data : NCBISearchResponse) (r : GeneFromSearch),
    r ∈ searchGenesResults data →
    strStartsWith r.chrom "chr" = true ∨ r.chrom = "" := by
  intro data r hr
  obtain ⟨row, g, h⟩ := mem_searchGenesResults hr
  exact (processRow_some h).2

/-- Claim C7 witness: the record produced from a row with chromosome cell
"7" has chrom chr7. -/
theorem searchGenes_chrom_amended_witness :
    strStartsWith (GeneFromSearch.mk "SYM" "NAME" "chr7" "NAME" "").chrom "chr" = true ∨
    (GeneFromSearch.mk "SYM" "NAME" "chr7" "NAME" "").chrom = "" :=
  searchGenes_chrom_amended fixtureGoodChrom _ (by decide)

/-- Claim C10: in every record returned by searchGenes, the description
field equals the name field (both come from row[3]). -/
theorem searchGenes_description_eq_name :
    ∀ (data : NCBISearchResponse) (r : GeneFromSearch),
    r ∈ searchGenesResults data → r.description = r.name := by
  intro data r hr
  obtain ⟨row, g, h⟩ := mem_searchGenesResults hr
  exact (processRow_some h).1

/-- Claim C10 witness: a concrete record of fixtureMixed has
description = name. -/
theorem searchGenes_description_eq_name_witness :
    (GeneFromSearch.mk "SYM0" "NAME0" "chr0" "NAME0" "").description =
      (GeneFromSearch.mk "SYM0" "NAME0" "chr0" "NAME0" "").name :=
  searchGenes_description_eq_name fixtureMixed _ (by decide)

/-- Replacing the first occurrence by the empty string equals positional
removal of the first occurrence. -/
lemma jsReplaceFirstAux_nil_repl (pat : List Char) :
    ∀ s : List Char, jsReplaceFirstAux pat [] s =
      match idxOfSub pat s with
      | none => s
      | some i => s.take i ++ s.drop (i + pat.length) := by
  intro s
  induction s with
  | nil =>
    by_cases h : pat.isPrefixOf ([] : List Char) = true <;>
      simp [jsReplaceFirstAux, idxOfSub, h]
  | cons c cs ih =>
    by_cases h : pat.isPrefixOf (c :: cs) = true
    · simp [jsReplaceFirstAux, idxOfSub, h]
    · simp only [jsReplaceFirstAux, idxOfSub, h, if_false, Bool.false_eq_true,
        if_neg, ite_false]
      rw [ih]
      cases hi : idxOfSub pat cs with
      | none => simp [hi]
      | some i =>
        simp only [hi, Option.map_some']
        rw [List.take_succ_cons, Nat.add_right_comm i 1 pat.length,
          List.drop_succ_cons, List.cons_append]

/-- The source's replace("chr","") equals the spec-side positional removal
of the first chr occurrence. -/
lemma jsReplaceFirst_chr_eq_remove (s : String) :
    jsReplaceFirst s "chr" "" = removeFirstOccur "chr" s := by
  obtain ⟨l⟩ := s
  unfold jsReplaceFirst removeFirstOccur
  rw [show ("".data : List Char) = [] from rfl, jsReplaceFirstAux_nil_repl]
  cases hi : idxOfSub "chr".data (String.mk l).data <;> simp [hi]

/-- chromCompare is the remainder comparator applied to the two names with
their first chr occurrence removed. -/
lemma chromCompare_eq_remCompare (a b : String) :
    chromCompare a b =
      remCompare (removeFirstOccur "chr" a) (removeFirstOccur "chr" b) := by
  simp only [chromCompare, remCompare, jsReplaceFirst_chr_eq_remove]

/-- Sign of the remainder comparator agrees with the spec's remainder
ordering rule. -/
lemma remCompare_spec (x y : String) :
    (remCompare x y < 0 ↔ specRemainderOrder x y = .lt) ∧
    (remCompare x y = 0 ↔ specRemainderOrder x y = .eq) ∧
    (0 < remCompare x y ↔ specRemainderOrder x y = .gt) := by
  by_cases hx : isNumStr x = true <;> by_cases hy : isNumStr y = true
  · simp only [remCompare, specRemainderOrder, hx, hy, Bool.and_self, if_true]
    refine ⟨?_, ?_, ?_⟩ <;> split_ifs with h1 h2 <;> simp <;> omega
  · simp only [remCompare, specRemainderOrder, hx, hy, Bool.and_false, if_true,
      Bool.false_eq_true, if_false]
    refine ⟨by norm_num, by decide, by decide⟩
  · simp only [remCompare, specRemainderOrder, hx, hy, Bool.false_and,
      Bool.false_eq_true, if_false, if_true]
    refine ⟨by decide, by decide, by norm_num⟩
  · simp only [remCompare, specRemainderOrder, hx, hy, Bool.false_and,
      Bool.false_eq_true, if_false]
    unfold localeCompare
    cases h : lexCompare x.data y.data <;> exact ⟨by decide, by decide, by decide⟩

/-- Claim C1 counterexample: the comparator puts 2chr before 10x (replace
strips the non-leading chr and sees the numeric remainder 2), while the
claimed rule — strip only a LEADING chr — leaves two non-numeric remainders
and puts 2chr after 10x lexicographically. -/
theorem chromCompare_leading_strip_cex :
    chromCompare "2chr" "10x" < 0 ∧
    specRemainderOrder (stripLeadingChr "2chr") (stripLeadingChr "10x") = .gt := by
  decide

/-- Claim C1 (amended): the comparator orders two names by removing the
FIRST occurrence of chr from each (which is the leading one whenever chr
occurs only as a leading prefix): purely numeric remainders compare by
numeric value, a purely numeric remainder sorts before a non-numeric one,
otherwise remainders compare lexicographically; in particular
chr2 < chr10 and chrX < chrY. -/
theorem chromCompare_first_occurrence_strip :
    ∀ a b : String,
    (chromCompare a b < 0 ↔
      specRemainderOrder (removeFirstOccur "chr" a) (removeFirstOccur "chr" b) = .lt) ∧
    (chromCompare a b = 0 ↔
      specRemainderOrder (removeFirstOccur "chr" a) (removeFirstOccur "chr" b) = .eq) ∧
    (0 < chromCompare a b ↔
      specRemainderOrder (removeFirstOccur "chr" a) (removeFirstOccur "chr" b) = .gt) ∧
    chromCompare "chr2" "chr10" < 0 ∧
    chromCompare "chrX" "chrY" < 0 := by
  intro a b
  obtain ⟨h1, h2, h3⟩ :=
    remCompare_spec (removeFirstOccur "chr" a) (removeFirstOccur "chr" b)
  rw [chromCompare_eq_remCompare]
  exact ⟨h1, h2, h3, by decide, by decide⟩

/-- Membership in first-seen deduplication: present in the list and not yet
seen. -/
lemma mem_firstSeenAux (a : String) :
    ∀ (l seen : List String), a ∈ firstSeenAux seen l ↔ a ∈ l ∧ a ∉ seen := by
  intro l
  induction l with
  | nil => intro seen; simp [firstSeenAux]
  | cons x l ih =>
    intro seen
    simp only [firstSeenAux]
    split_ifs with hx
    · rw [ih]
      simp only [List.mem_cons]
      constructor
      · rintro ⟨h1, h2⟩
        exact ⟨Or.inr h1, h2⟩
      · rintro ⟨h1 | h1, h2⟩
        · exact absurd (h1 ▸ hx) h2
        · exact ⟨h1, h2⟩
    · simp only [List.mem_cons, ih]
      constructor
      · rintro (rfl | ⟨h1, h2⟩)
        · exact ⟨Or.inl rfl, hx⟩
        · push_neg at h2
          exact ⟨Or.inr h1, h2.2⟩
      · rintro ⟨h1 | h1, h2⟩
        · exact Or.inl h1
        · by_cases hax : a = x
          · exact Or.inl hax
          · refine Or.inr ⟨h1, ?_⟩
            push_neg
            exact ⟨hax, h2⟩

/-- First-seen deduplication produces a list without duplicates. -/
lemma nodup_firstSeenAux : ∀ (l seen : List String), (firstSeenAux seen l).Nodup := by
  intro l
  induction l with
  | nil => intro seen; simp [firstSeenAux]
  | cons x l ih =>
    intro seen
    simp only [firstSeenAux]
    split_ifs with hx
    · exact ih seen
    · rw [List.nodup_cons]
      refine ⟨fun hmem => ?_, ih _⟩
      rw [mem_firstSeenAux] at hmem
      exact hmem.2 (List.mem_cons_self x seen)

/-- Appending one key to the input of first-seen deduplication appends it
to the output exactly when it is new. -/
lemma firstSeenAux_append (o : String) :
    ∀ (l seen : List String),
    firstSeenAux seen (l ++ [o]) =
      if o ∈ seen ∨ o ∈ l then firstSeenAux seen l
      else firstSeenAux seen l ++ [o] := by
  intro l
  induction l with
  | nil =>
    intro seen
    by_cases ho : o ∈ seen <;> simp [firstSeenAux, ho]
  | cons x l ih =>
    intro seen
    simp only [List.cons_append, firstSeenAux, List.append_eq]
    by_cases hx : x ∈ seen
    · simp only [if_pos hx]
      rw [ih]
      by_cases ho : o ∈ seen ∨ o ∈ l
      · rw [if_pos ho, if_pos ?_]
        rcases ho with h | h
        · exact Or.inl h
        · exact Or.inr (List.mem_cons_of_mem _ h)
      · rw [if_neg ho, if_neg ?_]
        rintro (h | h)
        · exact ho (Or.inl h)
        · rcases List.mem_cons.mp h with rfl | h
          · exact ho (Or.inl hx)
          · exact ho (Or.inr h)
    · simp only [if_neg hx]
      rw [ih]
      have hcond : (o ∈ x :: seen ∨ o ∈ l) ↔ (o ∈ seen ∨ o ∈ x :: l) := by
        simp only [List.mem_cons]
        tauto
      by_cases ho : o ∈ seen ∨ o ∈ x :: l
      · rw [if_pos (hcond.mpr ho), if_pos ho]
      · rw [if_neg (fun h => ho (hcond.mp h)), if_neg ho]
        rfl

/-- addEntry on an association list indexed by a duplicate-free key list:
append to the existing group when the key is present, else add a new group
at the end. -/
lemma addEntry_map (f : String → List GenomeAssemblyFromSearch)
    (o : String) (e : GenomeAssemblyFromSearch) :
    ∀ ks : List String, ks.Nodup →
    addEntry (ks.map (fun k => (k, f k))) o e =
      if o ∈ ks then ks.map (fun k => (k, if k = o then f k ++ [e] else f k))
      else ks.map (fun k => (k, f k)) ++ [(o, [e])] := by
  intro ks
  induction ks with
  | nil => intro _; simp [addEntry]
  | cons k ks ih =>
    intro hnd
    rw [List.nodup_cons] at hnd
    obtain ⟨hk_not, hnd⟩ := hnd
    simp only [List.map_cons, addEntry]
    by_cases hk : k = o
    · subst hk
      rw [if_pos rfl, if_pos (List.mem_cons_self _ _)]
      simp only [List.map_cons, if_pos rfl]
      congr 1
      apply List.map_congr_left
      intro x hx
      have hxo : ¬x = k := fun h => hk_not (h ▸ hx)
      rw [if_neg hxo]
    · rw [if_neg hk, ih hnd]
      by_cases ho : o ∈ ks
      · rw [if_pos ho, if_pos (List.mem_cons_of_mem _ ho), if_neg hk]
      · rw [if_neg ho, if_neg ?_]
        · simp only [List.map_cons, List.cons_append]
        · rw [List.mem_cons]
          rintro (rfl | h)
          · exact hk rfl
          · exact ho h

/-- Appending one tagged pair to the grouped view is exactly one addEntry
step. -/
lemma specGroupPairs_append (qs : List (String × GenomeAssemblyFromSearch))
    (o : String) (e : GenomeAssemblyFromSearch) :
    specGroupPairs (qs ++ [(o, e)]) = addEntry (specGroupPairs qs) o e := by
  unfold specGroupPairs firstSeen
  rw [List.map_append, List.map_cons, List.map_nil, firstSeenAux_append,
    addEntry_map (fun k => (qs.filter (fun q => q.1 = k)).map Prod.snd) o e _
      (nodup_firstSeenAux _ _)]
  by_cases ho : o ∈ qs.map Prod.fst
  · rw [if_pos (Or.inr ho),
      if_pos ((mem_firstSeenAux o (qs.map Prod.fst) []).mpr ⟨ho, by simp⟩)]
    apply List.map_congr_left
    intro k hk
    simp only [List.filter_append, List.map_append]
    by_cases hko : k = o
    · subst hko
      rw [if_pos rfl]
      simp
    · rw [if_neg hko]
      have : List.filter (fun q => decide (q.1 = k)) [(o, e)] = [] := by
        simp [Ne.symm hko]
      simp [this]
  · rw [if_neg (by simp [ho]),
      if_neg (fun h => ho ((mem_firstSeenAux o (qs.map Prod.fst) []).mp h).1),
      List.map_append]
    congr 1
    · apply List.map_congr_left
      intro k hk
      have hk' : k ∈ qs.map Prod.fst := ((mem_firstSeenAux k _ []).mp hk).1
      have hko : k ≠ o := fun h => ho (h ▸ hk')
      simp only [List.filter_append, List.map_append]
      have : List.filter (fun q => decide (q.1 = k)) [(o, e)] = [] := by
        simp [Ne.symm hko]
      simp [this]
    · simp only [List.map_cons, List.map_nil]
      have h0 : List.filter (fun q => decide (q.1 = o)) qs = [] := by
        rw [List.filter_eq_nil_iff]
        intro q hq
        simp only [decide_eq_true_eq]
        intro hqe
        exact ho (hqe ▸ List.mem_map_of_mem Prod.fst hq)
      simp [List.filter_append, h0]

/-- The genome-catalog fold over raw entries equals the fold of addEntry
over the surviving tagged pairs. -/
lemma foldStep_eq :
    ∀ (gs : List (String × Option GenomeInfo))
      (acc : List (String × List GenomeAssemblyFromSearch)),
    gs.foldl
      (fun acc p =>
        match p.2 with
        | none => acc
        | some info => addEntry acc (info.organism.getD "Other") (mkAssembly p.1 info))
      acc =
    (validPairs gs).foldl (fun acc q => addEntry acc q.1 q.2) acc := by
  intro gs
  induction gs with
  | nil => intro acc; rfl
  | cons p gs ih =>
    intro acc
    obtain ⟨gid, oi⟩ := p
    cases oi with
    | none =>
      simp only [List.foldl_cons, validPairs, List.filterMap_cons, Option.map_none']
      exact ih acc
    | some info =>
      simp only [List.foldl_cons, validPairs, List.filterMap_cons, Option.map_some']
      exact ih _

/-- Folding addEntry from the empty record rebuilds exactly the spec's
grouped view. -/
lemma groupFold_eq_spec :
    ∀ ps : List (String × GenomeAssemblyFromSearch),
    ps.foldl (fun acc q => addEntry acc q.1 q.2) [] = specGroupPairs ps := by
  intro ps
  induction ps using List.reverseRecOn with
  | nil => rfl
  | append_singleton ps q ih =>
    obtain ⟨o, e⟩ := q
    rw [List.foldl_append]
    simp only [List.foldl_cons, List.foldl_nil]
    rw [ih, specGroupPairs_append]

/-- Claim C9: getAvailableGenomes groups catalog entries by their organism
field (default "Other"), preserving first-seen organism insertion order
across groups and source order of entries within each group. -/
theorem getAvailableGenomes_grouping :
    ∀ gs : List (String × Option GenomeInfo),
    getAvailableGenomes gs = specGroupBy gs := by
  intro gs
  unfold getAvailableGenomes specGroupBy
  rw [foldStep_eq, groupFold_eq_spec]

end GenomeApi
